import Mathlib

/-!
Shallow embedding of the core of `src/App.tsx` (CloseCaption): the PCM
encoder (`encode`, `createBlob`), the transcript assembler (the `onmessage`
callback), and the capture lifecycle (`startCapture`, `stopCapture`).

Modelling conventions:
  * JavaScript numbers that feed the `Int16Array` store are modelled as
    rationals (`ℚ`).  The products `data[i] * 32768` and `data[i] * 32767`
    of a `Float32` value with these constants are exact in IEEE double
    precision (24-bit significand times a 15/16-bit integer fits in 53
    bits), so the rational model is exact for every input the code can see.
  * The `Int16Array` element store performs ECMAScript `ToInt16`:
    truncation toward zero, then reduction mod 2^16, then signed
    reinterpretation (`ratTrunc`, `toUint16`, `int16OfUint16`).
  * `new Uint8Array(int16.buffer)` views the 16-bit buffer byte by byte in
    platform byte order; per the wire contract this is little-endian
    (`toLEBytes`).
  * The binary string built with `String.fromCharCode` is modelled by its
    list of UTF-16 code units (`fromCharCode` reduces mod 2^16); `btoa`
    rejects any code unit above 255 (`Except.error`) and otherwise emits
    standard base64.
  * Optional / possibly-absent JavaScript fields are `Option`s.  JavaScript
    string concatenation `prev + text` with `text === undefined` yields
    `prev ++ "undefined"` (`jsAdd`).
  * JavaScript `String.prototype.trim` strips the ECMAScript WhiteSpace and
    LineTerminator code points from both ends; `jsTrim` implements exactly
    that over the string's characters.
  * The asynchronous lifecycle is the spec's cooperative single-timeline
    model: `stopCapture` returns, besides the new state, the ordered trace
    of teardown operations it performed; the session promise is abstracted
    by its eventual fate (fulfills, with the transport close possibly
    throwing, or rejects).
-/

/-- Truncation toward zero of a rational, as in ECMAScript `ToIntegerOrInfinity`. -/
def ratTrunc (q : ℚ) : ℤ := if q < 0 then ⌈q⌉ else ⌊q⌋

/-- The 16-bit pattern stored by an `Int16Array` element write: truncate toward
zero, then reduce mod 2^16 (ECMAScript `ToInt16`, unsigned view). -/
def toUint16 (q : ℚ) : ℕ := ((ratTrunc q) % 65536).toNat

/-- Signed reinterpretation of a 16-bit pattern, as reading an `Int16Array`
element does. -/
def int16OfUint16 (m : ℕ) : ℤ := if m < 32768 then (m : ℤ) else (m : ℤ) - 65536

/-- The value read back from `int16[i] = q`: `ToInt16` as a signed integer. -/
def toInt16 (q : ℚ) : ℤ := int16OfUint16 (toUint16 q)

/-- One sample of `createBlob`'s loop: `data[i] < 0 ? data[i] * 32768 : data[i] * 32767`
stored into the `Int16Array`. -/
def scaleSample (x : ℚ) : ℤ := toInt16 (if x < 0 then x * 32768 else x * 32767)

/-- Low byte of the 16-bit pattern of a stored sample. -/
def uint16lo (v : ℤ) : ℕ := ((v % 65536).toNat) % 256

/-- High byte of the 16-bit pattern of a stored sample. -/
def uint16hi (v : ℤ) : ℕ := ((v % 65536).toNat) / 256

/-- The byte sequence of `new Uint8Array(int16.buffer)`: each 16-bit sample
contributes its low byte then its high byte (little-endian platform order,
which is the wire contract). -/
def toLEBytes : List ℤ → List ℕ
  | [] => []
  | v :: rest => uint16lo v :: uint16hi v :: toLEBytes rest

/-- The base64 alphabet. -/
def base64Chars : List Char :=
  "ABCDEFGHIJKLMNOPQRSTUVWXYZabcdefghijklmnopqrstuvwxyz0123456789+/".data

/-- Character of the base64 alphabet at a 6-bit index. -/
def base64Char (n : ℕ) : Char := base64Chars.getD n 'A'

/-- Standard base64 of a byte list, three bytes to four characters with `=`
padding (the encoding `btoa` performs on its code units). -/
def base64Units : List ℕ → List Char
  | [] => []
  | [a] => [base64Char (a / 4), base64Char ((a % 4) * 16), '=', '=']
  | [a, b] => [base64Char (a / 4), base64Char ((a % 4) * 16 + b / 16),
      base64Char ((b % 16) * 4), '=']
  | a :: b :: c :: rest =>
      base64Char (a / 4) :: base64Char ((a % 4) * 16 + b / 16) ::
        base64Char ((b % 16) * 4 + c / 64) :: base64Char (c % 64) ::
        base64Units rest

/-- Base64 encoding of a byte list as a string. -/
def base64Encode (bytes : List ℕ) : String := String.mk (base64Units bytes)

/-- The UTF-16 code unit produced by `String.fromCharCode` for one argument. -/
def fromCharCode (n : ℕ) : ℕ := n % 65536

/-- Browser `btoa`: fails (`InvalidCharacterError`) when some code unit of the
input string exceeds 255, otherwise base64-encodes the code units as bytes. -/
def btoa (codeUnits : List ℕ) : Except Unit String :=
  if codeUnits.all (fun c => c < 256) then .ok (base64Encode codeUnits)
  else .error ()

/-- Source `encode(bytes)`: build the binary string whose code units are
`String.fromCharCode(bytes[i])` for each byte in order, then `btoa` it. -/
def encode (bytes : List ℕ) : Except Unit String :=
  btoa (bytes.map fromCharCode)

/-- The `Blob` value `createBlob` returns: base64 payload plus MIME type. -/
structure Blob where
  data : String
  mimeType : String
deriving DecidableEq

/-- Source `createBlob(data)`: scale each float sample into an `Int16Array`,
view its buffer as bytes, `encode` them, and pair the result with the fixed
MIME descriptor. -/
def createBlob (data : List ℚ) : Except Unit Blob :=
  (encode (toLEBytes (data.map scaleSample))).map
    (fun s => { data := s, mimeType := "audio/pcm;rate=16000" })

/-- Eventual outcome of the session promise held in `sessionPromiseRef`:
it fulfills with a session whose `close()` may or may not throw, or it
rejects (the `await` throws). -/
inductive SessionFate where
  | fulfills (closeThrows : Bool)
  | rejects
deriving DecidableEq

/-- The lifecycle state of a Web Audio `AudioContext`. -/
inductive AudioContextState where
  | running
  | suspended
  | closed
deriving DecidableEq

/-- Observable state of the component: the React state hooks that the claims
mention plus the four mutable refs of the capture pipeline. -/
structure AppState where
  isCapturing : Bool
  transcripts : List String
  currentTranscript : String
  error : Option String
  sessionPromise : Option SessionFate
  streamLive : Option Bool
  scriptProcessor : Bool
  audioContext : Option AudioContextState
deriving DecidableEq

/-- The `inputTranscription` object of a server message; its `text` field is
optional in the wire type. -/
structure InputTranscription where
  text : Option String
deriving DecidableEq

/-- The `serverContent` object of a server message. -/
structure ServerContent where
  inputTranscription : Option InputTranscription
  turnComplete : Option Bool
deriving DecidableEq

/-- A `LiveServerMessage` as the `onmessage` callback sees it; every field on
the path it reads is optional. -/
structure LiveServerMessage where
  serverContent : Option ServerContent
deriving DecidableEq

/-- JavaScript string concatenation `s + t` where `t` may be `undefined`:
`undefined` is coerced to the string "undefined". -/
def jsAdd (s : String) (t : Option String) : String :=
  s ++ (match t with | some u => u | none => "undefined")

/-- The code points ECMAScript `String.prototype.trim` removes: WhiteSpace
(tab, VT, FF, space, NBSP, ZWNBSP and the Unicode space separators) and
LineTerminator (LF, CR, LS, PS). -/
def jsWhitespaceChar (c : Char) : Bool :=
  [9, 10, 11, 12, 13, 32, 160, 0x1680, 0x2000, 0x2001, 0x2002, 0x2003,
    0x2004, 0x2005, 0x2006, 0x2007, 0x2008, 0x2009, 0x200A, 0x2028, 0x2029,
    0x202F, 0x205F, 0x3000, 0xFEFF].contains c.toNat

/-- JavaScript `s.trim()`: drop leading and trailing whitespace characters. -/
def jsTrim (s : String) : String :=
  String.mk (((s.data.dropWhile jsWhitespaceChar).reverse.dropWhile jsWhitespaceChar).reverse)

/-- The `onmessage` callback of `src/App.tsx` (lines 95-108): if
`message.serverContent?.inputTranscription` is present, append its `text` to
the current transcript; then, if `message.serverContent?.turnComplete` is
truthy, trim the current line, push it onto the finalized transcripts when
the trim is non-empty, and reset the current line to empty. -/
def onmessage (m : LiveServerMessage) (st : AppState) : AppState :=
  let st1 :=
    match m.serverContent with
    | some sc =>
        match sc.inputTranscription with
        | some it => { st with currentTranscript := jsAdd st.currentTranscript it.text }
        | none => st
    | none => st
  match m.serverContent with
  | some sc =>
      if sc.turnComplete.getD false then
        if jsTrim st1.currentTranscript = "" then
          { st1 with currentTranscript := "" }
        else
          { st1 with
              transcripts := st1.transcripts ++ [jsTrim st1.currentTranscript],
              currentTranscript := "" }
      else st1
  | none => st1

/-- Fold a sequence of server messages through the assembler in arrival order. -/
def processMessages (msgs : List LiveServerMessage) (st : AppState) : AppState :=
  msgs.foldl (fun s m => onmessage m s) st

/-- A pure delta message: `serverContent.inputTranscription.text` present,
no turn-complete flag. -/
def deltaMessage (text : String) : LiveServerMessage :=
  { serverContent := some { inputTranscription := some { text := some text }, turnComplete := none } }

/-- A pure turn-complete message. -/
def turnCompleteMessage : LiveServerMessage :=
  { serverContent := some { inputTranscription := none, turnComplete := some true } }

/-- A malformed message: the transcription payload is present but its `text`
field is absent. -/
def missingTextMessage : LiveServerMessage :=
  { serverContent := some { inputTranscription := some { text := none }, turnComplete := none } }

/-- Teardown operations `stopCapture` can perform, in the order it performs
them; `awaitSession` is the `await sessionPromiseRef.current`,
`closeSessionCall` the `session.close()` invocation, `closeSessionError` the
catch of an exception thrown by it. -/
inductive StopEvent where
  | awaitSession
  | closeSessionCall
  | closeSessionError
  | stopTracks
  | disconnectProcessor
  | closeContext
deriving DecidableEq

/-- The `stopCapture` callback of `src/App.tsx` (lines 134-161).  In source
order: set `isCapturing` false; if a session promise exists, await it and
call `close()` inside a try/catch (exceptions logged, never propagated) and
null the ref; if a stream exists, stop its tracks and null the ref; if a
script processor exists, disconnect it and null the ref; if an audio context
exists and is not already closed, await closing it and null the ref.
Returns the new state together with the ordered trace of device/session
operations performed. -/
def stopCapture (st : AppState) : AppState × List StopEvent :=
  let st0 := { st with isCapturing := false }
  let p1 : AppState × List StopEvent :=
    match st0.sessionPromise with
    | none => (st0, [])
    | some .rejects => ({ st0 with sessionPromise := none }, [.awaitSession])
    | some (.fulfills e) =>
        ({ st0 with sessionPromise := none },
          [StopEvent.awaitSession, StopEvent.closeSessionCall] ++
            (if e then [StopEvent.closeSessionError] else []))
  let p2 : AppState × List StopEvent :=
    match p1.1.streamLive with
    | none => (p1.1, [])
    | some _ => ({ p1.1 with streamLive := none }, [.stopTracks])
  let p3 : AppState × List StopEvent :=
    if p2.1.scriptProcessor then ({ p2.1 with scriptProcessor := false }, [.disconnectProcessor])
    else (p2.1, [])
  let p4 : AppState × List StopEvent :=
    match p3.1.audioContext with
    | none => (p3.1, [])
    | some s =>
        if s = .closed then (p3.1, [])
        else ({ p3.1 with audioContext := none }, [.closeContext])
  (p4.1, p1.2 ++ p2.2 ++ p3.2 ++ p4.2)

/-- Which steps of `startCapture` succeed in a given run: microphone access,
the `GoogleGenAI` constructor, the `AudioContext` constructor, and the
synchronous part of `ai.live.connect`. -/
structure StartEnv where
  micOk : Bool
  aiOk : Bool
  contextOk : Bool
  connectOk : Bool
deriving DecidableEq

/-- The error message the catch block of `startCapture` sets. -/
def startErrorMessage : String :=
  "Could not access microphone. Please grant permission and try again."

/-- The `startCapture` callback of `src/App.tsx` (lines 61-132).  In source
order: reset transcripts, current transcript and error, set `isCapturing`;
then request the microphone (on failure the catch sets the error and clears
`isCapturing`, touching nothing else), store the live stream in its ref,
construct the client, construct the audio context, and initiate the
connection, storing the session promise (whose eventual fate is the
parameter `fate`).  Any step throwing lands in the same catch block, which
releases nothing. -/
def startCapture (env : StartEnv) (fate : SessionFate) (st : AppState) : AppState :=
  let st := { st with
      transcripts := [], currentTranscript := "", error := none, isCapturing := true }
  if !env.micOk then { st with error := some startErrorMessage, isCapturing := false }
  else
    let st := { st with streamLive := some true }
    if !env.aiOk then { st with error := some startErrorMessage, isCapturing := false }
    else if !env.contextOk then { st with error := some startErrorMessage, isCapturing := false }
    else
      let st := { st with audioContext := some .running }
      if !env.connectOk then { st with error := some startErrorMessage, isCapturing := false }
      else { st with sessionPromise := some fate }

/-- The component's initial state: the `useState` initial values of
`src/App.tsx` plus the four refs, all null. -/
def initialState : AppState :=
  { isCapturing := false, transcripts := [], currentTranscript := "", error := none,
    sessionPromise := none, streamLive := none, scriptProcessor := false,
    audioContext := none }

/-- A state in mid-capture with every resource held: the session promise
fulfills with a session whose close does not throw, the microphone stream is
live, the processor is connected and the context running. -/
def fullCaptureState : AppState :=
  { isCapturing := true, transcripts := [], currentTranscript := "", error := none,
    sessionPromise := some (.fulfills false), streamLive := some true,
    scriptProcessor := true, audioContext := some .running }

/-- The run of `startCapture` in which microphone access succeeds but
constructing the audio context throws. -/
def startFailAfterMic : StartEnv :=
  { micOk := true, aiOk := true, contextOk := false, connectOk := true }

example : base64Encode [72, 101] = "SGU=" := by rfl
example : base64Encode [72, 101, 108] = "SGVs" := by rfl
example : jsTrim "  He llo  " = "He llo" := by rfl
example :
    processMessages [deltaMessage "He", deltaMessage "llo", turnCompleteMessage] initialState =
      { initialState with transcripts := ["Hello"], currentTranscript := "" } := by rfl

theorem jsTrim_empty : jsTrim "" = "" := rfl

theorem uint16lo_lt (v : ℤ) : uint16lo v < 256 := by
  unfold uint16lo
  omega

theorem uint16hi_lt (v : ℤ) : uint16hi v < 256 := by
  unfold uint16hi
  have h1 : (0 : ℤ) ≤ v % 65536 := Int.emod_nonneg v (by norm_num)
  have h2 : v % 65536 < 65536 := Int.emod_lt_of_pos v (by norm_num)
  omega

theorem toLEBytes_all_lt (xs : List ℤ) : (toLEBytes xs).all (fun c => c < 256) = true := by
  induction xs with
  | nil => rfl
  | cons v rest ih =>
      simp only [toLEBytes, List.all_cons, ih, Bool.and_true]
      simp [uint16lo_lt v, uint16hi_lt v]

theorem map_fromCharCode_toLEBytes (xs : List ℤ) :
    (toLEBytes xs).map fromCharCode = toLEBytes xs := by
  induction xs with
  | nil => rfl
  | cons v rest ih =>
      simp only [toLEBytes, List.map_cons, ih, fromCharCode]
      rw [Nat.mod_eq_of_lt (lt_trans (uint16lo_lt v) (by norm_num)),
        Nat.mod_eq_of_lt (lt_trans (uint16hi_lt v) (by norm_num))]

/-- C1: every `transcriptDelta(text)` appends `text` verbatim to the current
line; every `turnComplete` trims the current line, appends the trimmed text
to the finalized sequence exactly when it is non-empty, and resets the
current line to empty; and the deltas "He", "llo" followed by `turnComplete`
yield finalized sequence ["Hello"] and current line "". -/
theorem transcript_delta_turnComplete :
    (∀ (st : AppState) (text : String),
        onmessage (deltaMessage text) st =
          { st with currentTranscript := st.currentTranscript ++ text }) ∧
    (∀ st : AppState,
        onmessage turnCompleteMessage st =
          if jsTrim st.currentTranscript = "" then { st with currentTranscript := "" }
          else
            { st with
                transcripts := st.transcripts ++ [jsTrim st.currentTranscript]
                currentTranscript := "" }) ∧
    processMessages [deltaMessage "He", deltaMessage "llo", turnCompleteMessage] initialState =
      { initialState with transcripts := ["Hello"], currentTranscript := "" } := by
  refine ⟨fun st text => rfl, fun st => rfl, rfl⟩

/-- C3: `turnComplete` with an empty or all-whitespace current line adds no
finalized entry and only resets the current line; consequently a second
consecutive `turnComplete` is a no-op. -/
theorem turnComplete_empty_noop :
    (∀ st : AppState, jsTrim st.currentTranscript = "" →
        onmessage turnCompleteMessage st = { st with currentTranscript := "" }) ∧
    (∀ st : AppState,
        onmessage turnCompleteMessage (onmessage turnCompleteMessage st) =
          onmessage turnCompleteMessage st) := by
  constructor
  · intro st h
    simp [onmessage, turnCompleteMessage, h]
  · intro st
    by_cases h : jsTrim st.currentTranscript = "" <;>
      simp [onmessage, turnCompleteMessage, h, jsTrim_empty]

/-- Witness for C3: a concrete all-whitespace current line is flushed to no
new entry, with the current line reset. -/
theorem turnComplete_empty_noop_witness :
    jsTrim "  " = "" ∧
    onmessage turnCompleteMessage
        { initialState with transcripts := ["a"], currentTranscript := "  " } =
      { initialState with transcripts := ["a"], currentTranscript := "" } :=
  ⟨by rfl, turnComplete_empty_noop.1
    { initialState with transcripts := ["a"], currentTranscript := "  " } (by rfl)⟩

/-- C4: a message with no `serverContent` is indeed ignored and the assembler
never throws; but at the failing input — a transcription payload whose `text`
field is absent — the code appends the JavaScript coercion "undefined" to the
current line instead of leaving the state unchanged, contradicting the
claimed empty-delta semantics. -/
theorem onmessage_missing_text_appends_undefined :
    (∀ st : AppState, onmessage { serverContent := none } st = st) ∧
    onmessage missingTextMessage initialState =
      { initialState with currentTranscript := "undefined" } ∧
    { initialState with currentTranscript := "undefined" } ≠ initialState := by
  refine ⟨fun st => rfl, rfl, by decide⟩

/-- C9: calling `stopCapture` when capture was never started performs no
device, context or session operation and leaves the state unchanged, and
after any `stopCapture` a further `stopCapture` performs no operation and
changes nothing. -/
theorem stopCapture_idempotent_noop :
    stopCapture initialState = (initialState, []) ∧
    (∀ st : AppState, stopCapture (stopCapture st).1 = ((stopCapture st).1, [])) := by
  constructor
  · rfl
  · intro st
    obtain ⟨ic, ts, ct, er, sp, sl, spr, ac⟩ := st
    rcases sp with - | (e | -)
    all_goals rcases sl with - | b
    all_goals cases spr
    all_goals rcases ac with - | s
    all_goals try rfl
    all_goals cases s <;> rfl

/-- C5 counterexample: at a state holding every resource, the first teardown
operation of `stopCapture` is the session await, not the claimed
stopping of the device stream's tracks, and the whole trace closes the
session first rather than last. -/
theorem stopCapture_session_not_last :
    (stopCapture fullCaptureState).2 =
      [StopEvent.awaitSession, StopEvent.closeSessionCall, StopEvent.stopTracks,
        StopEvent.disconnectProcessor, StopEvent.closeContext] ∧
    (stopCapture fullCaptureState).2.head? ≠ some StopEvent.stopTracks := by
  exact ⟨rfl, by decide⟩

/-- C5 amended: when `stopCapture` runs after a successful start (session
promise fulfilled, live stream, connected processor, running context), the
teardown order is: await and close the session (exceptions caught), then
stop the stream's tracks, then disconnect the processing graph, then close
the processing context. -/
theorem stopCapture_order (st : AppState) (e : Bool)
    (hs : st.sessionPromise = some (.fulfills e))
    (hl : st.streamLive = some true)
    (hp : st.scriptProcessor = true)
    (hc : st.audioContext = some .running) :
    (stopCapture st).2 =
      [StopEvent.awaitSession, StopEvent.closeSessionCall] ++
        (if e then [StopEvent.closeSessionError] else []) ++
        [StopEvent.stopTracks, StopEvent.disconnectProcessor, StopEvent.closeContext] := by
  obtain ⟨ic, ts, ct, er, sp, sl, spr, ac⟩ := st
  simp only at hs hl hp hc
  subst hs hl hp hc
  cases e <;> rfl

/-- Witness for the amended C5: the concrete mid-capture state is torn down
session first, then tracks, then processor, then context. -/
theorem stopCapture_order_witness :
    fullCaptureState.sessionPromise = some (.fulfills false) ∧
    fullCaptureState.streamLive = some true ∧
    fullCaptureState.scriptProcessor = true ∧
    fullCaptureState.audioContext = some .running ∧
    (stopCapture fullCaptureState).2 =
      [StopEvent.awaitSession, StopEvent.closeSessionCall, StopEvent.stopTracks,
        StopEvent.disconnectProcessor, StopEvent.closeContext] :=
  ⟨rfl, rfl, rfl, rfl, stopCapture_order fullCaptureState false rfl rfl rfl rfl⟩

/-- C7: when `stopCapture` runs while a session promise that will fulfill is
pending, the await on the deferred handle comes first, the transport close is
invoked exactly once right after it, the session reference is cleared, and a
repeated `stopCapture` never closes the transport again; this holds whether
or not the close itself throws (the exception is caught and teardown
continues). -/
theorem session_close_exactly_once (st : AppState) (e : Bool)
    (h : st.sessionPromise = some (.fulfills e)) :
    (stopCapture st).2.count StopEvent.closeSessionCall = 1 ∧
    (stopCapture st).2.head? = some StopEvent.awaitSession ∧
    (stopCapture st).2.get? 1 = some StopEvent.closeSessionCall ∧
    ((stopCapture st).1).sessionPromise = none ∧
    (stopCapture (stopCapture st).1).2.count StopEvent.closeSessionCall = 0 := by
  obtain ⟨ic, ts, ct, er, sp, sl, spr, ac⟩ := st
  simp only at h
  subst h
  cases e <;> rcases sl with - | b <;> cases spr <;> rcases ac with - | s
  all_goals try exact ⟨rfl, rfl, rfl, rfl, rfl⟩
  all_goals cases s <;> exact ⟨rfl, rfl, rfl, rfl, rfl⟩

/-- Witness for C7: at the concrete mid-capture state the transport is closed
exactly once, after the await, and a second stop closes nothing. -/
theorem session_close_exactly_once_witness :
    fullCaptureState.sessionPromise = some (.fulfills false) ∧
    (stopCapture fullCaptureState).2.count StopEvent.closeSessionCall = 1 ∧
    (stopCapture fullCaptureState).2.head? = some StopEvent.awaitSession ∧
    (stopCapture fullCaptureState).2.get? 1 = some StopEvent.closeSessionCall ∧
    ((stopCapture fullCaptureState).1).sessionPromise = none ∧
    (stopCapture (stopCapture fullCaptureState).1).2.count StopEvent.closeSessionCall = 0 :=
  ⟨rfl,
    (session_close_exactly_once fullCaptureState false rfl).1,
    (session_close_exactly_once fullCaptureState false rfl).2.1,
    (session_close_exactly_once fullCaptureState false rfl).2.2.1,
    (session_close_exactly_once fullCaptureState false rfl).2.2.2.1,
    (session_close_exactly_once fullCaptureState false rfl).2.2.2.2⟩

/-- C6: at the failing input — microphone access granted but audio-context
construction throwing — the catch block of `startCapture` reports the error
and returns to not-capturing, but leaves the already-acquired microphone
stream live in its ref: a dangling device handle, contradicting the claim
that any stream acquired before the failure is released. -/
theorem startCapture_dangling_stream :
    (startCapture startFailAfterMic (.fulfills false) initialState).isCapturing = false ∧
    (startCapture startFailAfterMic (.fulfills false) initialState).error =
      some startErrorMessage ∧
    (startCapture startFailAfterMic (.fulfills false) initialState).streamLive = some true :=
  ⟨rfl, rfl, rfl⟩

/-- C10: every invocation of `startCapture` resets the observable transcript
state first: the result always has an empty finalized sequence and an empty
current line, and the whole outcome is the same as if the previous
transcripts, current line and error had already been cleared — finalized
lines of a previous session never survive a restart. -/
theorem startCapture_resets_transcript :
    ∀ (env : StartEnv) (fate : SessionFate) (st : AppState),
      (startCapture env fate st).transcripts = [] ∧
      (startCapture env fate st).currentTranscript = "" ∧
      startCapture env fate st =
        startCapture env fate
          { st with transcripts := [], currentTranscript := "", error := none } := by
  intro env fate st
  obtain ⟨micOk, aiOk, contextOk, connectOk⟩ := env
  cases micOk <;> cases aiOk <;> cases contextOk <;> cases connectOk <;>
    exact ⟨rfl, rfl, rfl⟩

/-- C2: `createBlob` scales negative samples by 32768 and non-negative ones
by 32767 into 16-bit values (`scaleSample`), and its result is exactly the
base64 encoding of the little-endian bytes of those samples paired with the
fixed MIME descriptor; as a total function of its input it is deterministic
and side-effect-free, and the `btoa` step can never fail on it. -/
theorem createBlob_base64_le :
    ∀ data : List ℚ,
      createBlob data =
        Except.ok { data := base64Encode (toLEBytes (data.map scaleSample)),
                    mimeType := "audio/pcm;rate=16000" } := by
  intro data
  unfold createBlob encode btoa
  rw [map_fromCharCode_toLEBytes, toLEBytes_all_lt]
  rfl

theorem ratTrunc_of_neg {q : ℚ} (h : q < 0) : ratTrunc q = ⌈q⌉ := by
  unfold ratTrunc
  exact if_pos h

theorem ratTrunc_of_nonneg {q : ℚ} (h : 0 ≤ q) : ratTrunc q = ⌊q⌋ := by
  unfold ratTrunc
  exact if_neg (not_lt.2 h)

theorem toInt16_of_bounds (q : ℚ) (h1 : -32768 ≤ ratTrunc q) (h2 : ratTrunc q ≤ 32767) :
    toInt16 q = ratTrunc q := by
  unfold toInt16 toUint16 int16OfUint16
  split <;> omega

/-- C8: for every sample in [-1, 1) the scaled 16-bit value decodes back to
within one quantization step of the original (1/32768 on the negative side,
1/32767 on the non-negative side), and the boundary input 1.0 maps exactly
to the maximum positive 16-bit value 32767. -/
theorem pcm_quantization (x : ℚ) (hlo : -1 ≤ x) (hhi : x < 1) :
    (x < 0 → |x - (scaleSample x : ℚ) / 32768| < 1 / 32768) ∧
    (0 ≤ x → |x - (scaleSample x : ℚ) / 32767| < 1 / 32767) ∧
    scaleSample 1 = 32767 := by
  refine ⟨?_, ?_, ?_⟩
  · intro hx
    have hy0 : x * 32768 < 0 := mul_neg_of_neg_of_pos hx (by norm_num)
    have hylo : (-32768 : ℚ) ≤ x * 32768 := by nlinarith
    have hcl : (-32768 : ℤ) ≤ ⌈x * 32768⌉ := by
      have hcast : ((-32768 : ℤ) : ℚ) ≤ x * 32768 := by exact_mod_cast hylo
      simpa using Int.ceil_le_ceil hcast
    have hch : ⌈x * 32768⌉ ≤ 32767 := Int.ceil_le.2 (by push_cast; linarith)
    have htr : ratTrunc (x * 32768) = ⌈x * 32768⌉ := ratTrunc_of_neg hy0
    have hsc : scaleSample x = ⌈x * 32768⌉ := by
      unfold scaleSample
      rw [if_pos hx,
        toInt16_of_bounds (x * 32768) (by rw [htr]; exact hcl) (by rw [htr]; exact hch), htr]
    rw [hsc, abs_lt]
    have h1 : x * 32768 ≤ (⌈x * 32768⌉ : ℚ) := Int.le_ceil _
    have h2 : (⌈x * 32768⌉ : ℚ) < x * 32768 + 1 := Int.ceil_lt_add_one _
    constructor <;> linarith
  · intro hx
    have hy0 : 0 ≤ x * 32767 := mul_nonneg hx (by norm_num)
    have hyhi : x * 32767 < 32767 := by nlinarith
    have hfl : (0 : ℤ) ≤ ⌊x * 32767⌋ := Int.le_floor.2 (by exact_mod_cast hy0)
    have hfh : ⌊x * 32767⌋ ≤ 32767 := by
      have : ⌊x * 32767⌋ < 32768 := Int.floor_lt.2 (by push_cast; linarith)
      omega
    have htr : ratTrunc (x * 32767) = ⌊x * 32767⌋ := ratTrunc_of_nonneg hy0
    have hsc : scaleSample x = ⌊x * 32767⌋ := by
      unfold scaleSample
      rw [if_neg (not_lt.2 hx),
        toInt16_of_bounds (x * 32767) (by rw [htr]; omega) (by rw [htr]; exact hfh), htr]
    rw [hsc, abs_lt]
    have h1 : (⌊x * 32767⌋ : ℚ) ≤ x * 32767 := Int.floor_le _
    have h2 : x * 32767 < ⌊x * 32767⌋ + 1 := Int.lt_floor_add_one _
    constructor <;> linarith
  · simp only [scaleSample, toInt16, toUint16, ratTrunc, int16OfUint16]
    norm_num

/-- Witness for C8: the sample 0 satisfies the range hypotheses and its
non-negative round-trip error is below one quantization step. -/
theorem pcm_quantization_witness :
    ((-1 : ℚ) ≤ 0 ∧ (0 : ℚ) < 1) ∧
    |(0 : ℚ) - (scaleSample 0 : ℚ) / 32767| < 1 / 32767 :=
  ⟨⟨by decide, by decide⟩, (pcm_quantization 0 (by decide) (by decide)).2.1 le_rfl⟩
